import Mathlib

/-!
Verification of the Utah Olympics 2026 tracker schedule module
(`schedule.js`): cache TTL and refresh throttling, API data
normalization (sport classification, discipline cleaning, gender
detection, medal-event filtering), CET to Mountain time conversion,
broadcast enrichment, and athlete-to-event matching.

JavaScript strings are modelled as `String` (operating on the
underlying `List Char`); absent/undefined string fields are modelled
as `""`, matching the source's pervasive `x || ''` defaulting.
Times are epoch milliseconds modelled as `Int`.
-/

namespace Sched

/-- Character-list prefix test, mirroring a left-to-right comparison of
a pattern against the start of a string. -/
def isPre : List Char → List Char → Bool
  | [], _ => true
  | _ :: _, [] => false
  | a :: as, b :: bs => a == b && isPre as bs

/-- Substring occurrence test: models JavaScript
`s.indexOf(pat) !== -1` (does `pat` occur anywhere in `s`?). -/
def occursB (pat : List Char) : List Char → Bool
  | [] => isPre pat []
  | c :: t => isPre pat (c :: t) || occursB pat t

/-- String-level wrapper for `occursB`: JS `s.indexOf(pat) !== -1`. -/
def containsS (s pat : String) : Bool := occursB pat.data s.data

/-- String-level prefix test: JS `s.indexOf(pat) === 0`. -/
def startsWithS (s pat : String) : Bool := isPre pat.data s.data

/-- Fuel-indexed global replace-with-empty: scans left to right, and on
a match skips past the matched pattern, mirroring JavaScript
`s.replace(/pat/g, '')` for a literal nonempty pattern. Fuel bounds
the recursion; one character or one match is consumed per step, so
fuel `s.length` always suffices. -/
def replaceAllFuel (pat : List Char) : Nat → List Char → List Char
  | 0, s => s
  | _ + 1, [] => []
  | fuel + 1, c :: t =>
    if isPre pat (c :: t) && !pat.isEmpty then
      replaceAllFuel pat fuel (List.drop pat.length (c :: t))
    else
      c :: replaceAllFuel pat fuel t

/-- Global replace-with-empty on character lists: JS
`s.replace(/pat/g, '')` for a literal pattern. -/
def replaceAllL (pat s : List Char) : List Char := replaceAllFuel pat s.length s

/-- Left-trim then right-trim of whitespace on a character list,
mirroring JavaScript `String.prototype.trim`. -/
def trimL (s : List Char) : List Char :=
  ((s.dropWhile Char.isWhitespace).reverse.dropWhile Char.isWhitespace).reverse

/-- String-level trim: JS `s.trim()`. -/
def trimS (s : String) : String := ⟨trimL s.data⟩

/-- String lowercasing: JS `s.toLowerCase()` (ASCII letters, which is
all the source's patterns use). -/
def lowerS (s : String) : String := ⟨s.data.map Char.toLower⟩

/-- Split a character list at every occurrence of a separator
character, mirroring JavaScript `s.split(sep)` (adjacent separators
yield empty fields; the empty string yields one empty field). -/
def splitCh (c : Char) : List Char → List (List Char)
  | [] => [[]]
  | x :: xs =>
    if x == c then [] :: splitCh c xs
    else
      match splitCh c xs with
      | [] => [[x]]
      | l :: ls => (x :: l) :: ls

/-- String-level split on a character: JS `s.split(c)`. -/
def splitS (c : Char) (s : String) : List String :=
  (splitCh c s.data).map (fun l => ⟨l⟩)

/-- Value of the leading decimal-digit run of a character list, folded
onto an accumulator, stopping at the first non-digit. -/
def digitsVal (acc : Nat) : List Char → Nat
  | [] => acc
  | c :: t => if c.isDigit then digitsVal (acc * 10 + (c.toNat - 48)) t else acc

/-- Leading decimal-digit run of a character list, as a number;
`none` when the list does not start with a digit. Models the digit
consumption of JavaScript `parseInt(s, 10)`. -/
def parseDigits : List Char → Option Nat
  | [] => none
  | c :: t => if c.isDigit then some (digitsVal (c.toNat - 48) t) else none

/-- Venue field of a raw API event: absent/null, a bare string, or a
structured object with (possibly empty) `name` and `city`. -/
inductive RawVenue
  | noVenue
  | vstr (s : String)
  | vobj (name city : String)
deriving DecidableEq

/-- Raw event record as returned by the RapidAPI `/events` endpoint.
Absent string fields are modelled as `""` (the source defaults every
read with `x || ''`); `is_medal_event` defaults to `false`
(`e.is_medal_event || false`). -/
structure RawEvent where
  id : String := ""
  date : String := ""
  time : String := ""
  sport : String := ""
  discipline : String := ""
  event : String := ""
  eventName : String := ""
  gender : String := ""
  venue : RawVenue := .noVenue
  is_medal_event : Bool := false
  status : String := ""
deriving DecidableEq

/-- One broadcast entry (`network` / `type` / optional `time`); the
`type` property is modelled as `btype`. -/
structure Broadcast where
  network : String
  btype : String
  time : String := ""
deriving DecidableEq

/-- Normalized event produced by `normalizeAPIData`. -/
structure NormEvent where
  id : String := ""
  date : String := ""
  time : String := ""
  sport : String := ""
  discipline : String := ""
  event : String := ""
  venue : String := ""
  isMedalEvent : Bool := false
  status : String := "upcoming"
  eventGender : String := ""
  broadcast : List Broadcast := []
deriving DecidableEq

/-- Map from API snake_case sport codes to display names
(`apiSportNames` in `schedule.js`, all 16 entries). -/
def apiSportNames : String → Option String
  | "alpine_skiing" => some "Alpine Skiing"
  | "biathlon" => some "Biathlon"
  | "bobsleigh" => some "Bobsleigh"
  | "cross_country_skiing" => some "Cross-Country Skiing"
  | "curling" => some "Curling"
  | "figure_skating" => some "Figure Skating"
  | "freestyle_skiing" => some "Freestyle Skiing"
  | "ice_hockey" => some "Ice Hockey"
  | "luge" => some "Luge"
  | "nordic_combined" => some "Nordic Combined"
  | "short_track" => some "Short Track Speed Skating"
  | "skeleton" => some "Skeleton"
  | "ski_jumping" => some "Ski Jumping"
  | "ski_mountaineering" => some "Ski Mountaineering"
  | "snowboarding" => some "Snowboard"
  | "speed_skating" => some "Speed Skating"
  | _ => none

/-- `displaySportName(apiName)`:
`apiSportNames[(apiName || '').toLowerCase()] || apiName || ''`. -/
def displaySportName (apiName : String) : String :=
  match apiSportNames (lowerS apiName) with
  | some d => d
  | none => apiName

/-- Lowercased venue name used by `classifyUnknownEvent`:
`(e.venue && e.venue.name) ? e.venue.name.toLowerCase() : ''`
(a bare-string venue has no `.name` property; an empty name is falsy). -/
def venueNameLower : RawVenue → String
  | .vobj name _ => if name = "" then "" else lowerS name
  | _ => ""

/-- `classifyUnknownEvent(e)`: venue/discipline heuristic assigning a
sport to events the API returns with `sport="unknown"`; returns `""`
when unclassifiable. -/
def classifyUnknownEvent (e : RawEvent) : String :=
  let disc := lowerS e.discipline
  let venueName := venueNameLower e.venue
  if containsS venueName "sliding" then
    if containsS disc "singles" || containsS disc "doubles" ||
        containsS disc "mixed team" || containsS disc "team relay" then "Luge"
    else if containsS disc "heat" then "Skeleton"
    else "Luge"
  else if containsS venueName "ice skating" || containsS venueName "palasharp" then
    if containsS disc "single skating" || containsS disc "team event" ||
        containsS disc "free skating" || containsS disc "ice danc" ||
        containsS disc "pairs" then "Figure Skating"
    else "Short Track Speed Skating"
  else if containsS disc "aerials" || containsS disc "moguls" then "Freestyle Skiing"
  else if containsS disc "freeski" || containsS disc "ski cross" then "Freestyle Skiing"
  else if containsS disc "slopestyle" && containsS disc "livigno" then "Freestyle Skiing"
  else if containsS disc "stelvio" || containsS disc "combined" then "Alpine Skiing"
  else if containsS disc "medal game" || containsS disc "semi-final" then "Ice Hockey"
  else ""

/-- The ten literal patterns `cleanDiscipline` strips, in source
order: `"Medal Event"` first, then the nine embedded venue names. -/
def cleanPatterns : List String :=
  ["Medal Event",
   "Livigno Aerials & Moguls Park",
   "Livigno Snow Park",
   "Stelvio Ski Centre",
   "Tofane Alpine Skiing Centre",
   "Tesero Cross-Country Skiing Stadium",
   "Predazzo Ski Jumping Stadium",
   "Cortina Sliding Centre",
   "Milano Ice Skating Arena",
   "PalaSharp"]

/-- `cleanDiscipline(disc)`: sequentially removes every occurrence of
each pattern, then trims whitespace; `""` passes through. -/
def cleanDiscipline (disc : String) : String :=
  if disc = "" then ""
  else ⟨trimL (cleanPatterns.foldl (fun acc p => replaceAllL p.data acc) disc.data)⟩

/-- Join a list of strings with a separator (JS `parts.join(sep)`). -/
def joinSep (sep : String) : List String → String
  | [] => ""
  | [x] => x
  | x :: xs => x ++ sep ++ joinSep sep xs

/-- Venue string built from the structured venue field (step 2 of
`normalizeAPIData`): a truthy string venue passes through; an object
venue joins its nonempty `name`/`city` parts with `", "`. -/
def buildVenue : RawVenue → String
  | .noVenue => ""
  | .vstr s => s
  | .vobj name city =>
    joinSep ", " ((if name = "" then [] else [name]) ++
      (if city = "" then [] else [city]))

/-- Venue extraction from discipline text when the structured venue is
empty (step 2, second half of `normalizeAPIData`). -/
def extractVenue (e : RawEvent) (venue0 : String) : String :=
  if venue0 ≠ "" then venue0
  else
    let rawDisc := e.discipline
    if containsS rawDisc "Livigno Aerials" then "Livigno Aerials & Moguls Park, Livigno"
    else if containsS rawDisc "Livigno Snow" then "Livigno Snow Park, Livigno"
    else if containsS rawDisc "Stelvio" then "Stelvio Ski Centre, Bormio"
    else if containsS rawDisc "Tofane" then "Tofane Alpine Skiing Centre, Cortina"
    else if containsS rawDisc "Tesero" then "Tesero Cross-Country Skiing Stadium, Tesero"
    else if containsS rawDisc "Predazzo" then "Predazzo Ski Jumping Stadium, Predazzo"
    else ""

/-- ASCII word character, as in the JavaScript regex class `\w`. -/
def isWordChar (c : Char) : Bool := c.isAlphanum || c == '_'

/-- True when the optional character to the left of a match position
is absent (string start) or a non-word character. -/
def notWord : Option Char → Bool
  | none => true
  | some c => !isWordChar c

/-- Scanner for the regex `/\bmen\b/`: looks for `"men"` with a
non-word (or absent) character on each side; `prev` is the character
just before the current position. -/
def wbMenAux (prev : Option Char) : List Char → Bool
  | 'm' :: 'e' :: 'n' :: rest =>
    (notWord prev && (match rest with | [] => true | c :: _ => !isWordChar c))
      || wbMenAux (some 'm') ('e' :: 'n' :: rest)
  | c :: rest => wbMenAux (some c) rest
  | [] => false

/-- `/\bmen\b/.test(s)`. -/
def wbMen (s : String) : Bool := wbMenAux none s.data

/-- Gender source text (step 5 of `normalizeAPIData`): the raw
`discipline`, `event`, `eventName` and `gender` fields joined with
spaces and lowercased. -/
def genderSourceOf (e : RawEvent) : String :=
  lowerS (e.discipline ++ " " ++ e.event ++ " " ++ e.eventName ++ " " ++ e.gender)

/-- Gender detection (step 5 of `normalizeAPIData`): `"mixed"` first
(yields `""`), then `"women"`/`"ladies"` (`"F"`), then a word-boundary
`"men"` or `"men's"` with either apostrophe (`"M"`), else `""`. -/
def inferGender (src : String) : String :=
  if containsS src "mixed" then ""
  else if containsS src "women" || containsS src "ladies" then "F"
  else if wbMen src || containsS src "men\x27s" || containsS src "men’s" then "M"
  else ""

/-- Per-event normalization: the body of the `events.map` callback in
`normalizeAPIData` (steps 1 through 5 and the returned object). -/
def normalizeOne (e : RawEvent) : NormEvent :=
  let sport0 :=
    if e.sport = "" || e.sport = "unknown" then
      let classified := classifyUnknownEvent e
      if classified = "" then "unknown" else classified
    else displaySportName e.sport
  let venue := extractVenue e (buildVenue e.venue)
  let cleaned := cleanDiscipline e.discipline
  let rawDiscLower := lowerS e.discipline
  let sport :=
    if sport0 = "Freestyle Skiing" &&
        (containsS rawDiscLower "sbd " || containsS rawDiscLower "pgs " ||
          startsWithS rawDiscLower "pgs" || containsS rawDiscLower "snowboard" ||
          containsS rawDiscLower "sbx") then
      "Snowboard"
    else sport0
  { id := e.id
    date := e.date
    time := e.time
    sport := sport
    discipline := cleaned
    event := if cleaned ≠ "" then cleaned
      else if e.event ≠ "" then e.event else e.eventName
    venue := venue
    isMedalEvent := e.is_medal_event
    status := if e.status = "" then "upcoming" else e.status
    eventGender := inferGender (genderSourceOf e)
    broadcast := [] }

/-- `normalizeAPIData(data)`: maps `normalizeOne` over the raw event
list, then keeps only events whose sport is not `"unknown"` and whose
medal flag is set (step 6). The input is modelled as the extracted
event list (the source first unwraps `data` / `data.events` /
`data.schedule`). -/
def normalizeAPIData (data : List RawEvent) : List NormEvent :=
  (data.map normalizeOne).filter
    (fun e => decide (e.sport ≠ "unknown") && e.isMedalEvent)

/-- Model of JavaScript `parseInt(s, 10)`: leading whitespace skipped,
an optional sign, then the leading digit run; `none` models `NaN`
(no digits found). -/
def parseIntJS (s : String) : Option Int :=
  match s.data.dropWhile Char.isWhitespace with
  | '-' :: rest => (parseDigits rest).map (fun n => -(n : Int))
  | '+' :: rest => (parseDigits rest).map (fun n => (n : Int))
  | l => (parseDigits l).map (fun n => (n : Int))

/-- `cetToMountain(timeStr)`: split on `':'`, parse the hour, subtract
8, add 24 on underflow, zero-pad below 10, and reattach the minutes
part (`parts[1] || '00'`); returns `""` for an empty input or an
unparseable hour. -/
def cetToMountain (timeStr : String) : String :=
  if timeStr = "" then ""
  else
    let parts := splitS ':' timeStr
    let m := match parts.drop 1 with
      | [] => "00"
      | s :: _ => if s = "" then "00" else s
    match parseIntJS (parts.headD "") with
    | none => ""
    | some h0 =>
      let h1 := h0 - 8
      let h := if h1 < 0 then h1 + 24 else h1
      (if h < 10 then "0" else "") ++ toString h ++ ":" ++ m

/-- Epoch milliseconds of `2026-02-06T00:00:00` (read as UTC; the
source parses this literal in the runtime's local timezone — the
fixed offset is immaterial to the properties proved below). -/
def WINDOW_START : Int := 1770336000000

/-- Epoch milliseconds of `2026-02-23T00:00:00` (same convention as
`WINDOW_START`). -/
def WINDOW_END : Int := 1771804800000

/-- The competition-window test `now >= start && now <= end` shared by
`getCacheTTL` and `canRefreshAPI`. -/
def inWindow (now : Int) : Bool := WINDOW_START ≤ now && now ≤ WINDOW_END

/-- `getCacheTTL()`: 30 minutes inside the competition window, 24
hours outside, as a function of the current time. -/
def getCacheTTL (now : Int) : Int :=
  if inWindow now then 30 * 60 * 1000 else 24 * 60 * 60 * 1000

/-- One parsed localStorage cache record: a write timestamp and the
stored payload (`none` models a falsy `cached.data`). -/
structure CacheEntry (α : Type) where
  timestamp : Int
  data : Option α

/-- `getCacheWithAge(key)`: returns the stored payload together with
its staleness flag `(Date.now() - cached.timestamp) > getCacheTTL()`;
`none` models a missing/unparseable entry or falsy payload. `stored`
stands for the parsed content of `localStorage[key]` and `now` for
`Date.now()`. -/
def getCacheWithAge {α : Type} (now : Int) (stored : Option (CacheEntry α)) :
    Option (α × Bool) :=
  match stored with
  | none => none
  | some c =>
    match c.data with
    | none => none
    | some d => some (d, decide (now - c.timestamp > getCacheTTL now))

/-- Refresh-throttle window of `canRefreshAPI`: 1 hour inside the
competition window, 24 hours outside. -/
def throttleWindow (now : Int) : Int :=
  if inWindow now then 60 * 60 * 1000 else 24 * 60 * 60 * 1000

/-- `canRefreshAPI()`: always true under the `?refresh` bypass;
otherwise true when no last-attempt timestamp is recorded or when
strictly more than the throttle window has elapsed since it. `last`
stands for the parsed `REFRESH_THROTTLE_KEY` localStorage value. -/
def canRefreshAPI (bypass : Bool) (now : Int) (last : Option Int) : Bool :=
  if bypass then true
  else
    match last with
    | none => true
    | some l => now - l > throttleWindow now

/-- Observable effect of one `backgroundRefresh` invocation at time
`now` with recorded last-attempt timestamp `last`: the first component
is whether an outbound API call is issued, the second the updated
last-attempt timestamp (`markRefreshAttempt` runs exactly when the
throttle check passes, before the call). -/
def backgroundRefreshStep (bypass : Bool) (now : Int) (last : Option Int) :
    Bool × Option Int :=
  if canRefreshAPI bypass now last then (true, some now) else (false, last)

/-- Broadcast rules loaded from `data/broadcast.json`: `streaming` is
`(network, type)` with `""` modelling an absent `type`;
`medalPrimetime` is `(network, time)`; `sportNetworks` and
`eventOverrides` are the two lookup tables. -/
structure BroadcastRules where
  streaming : Option (String × String)
  sportNetworks : String → Option String
  medalPrimetime : Option (String × String)
  eventOverrides : String → Option (List Broadcast)

/-- `applyBroadcastRules(events, rules)`: with null rules the event
list is returned as is; otherwise each event is rebuilt (via the
non-mutating `assign`) with a broadcast list assembled from an
event-specific override, or else the sport network entry, the NBC
primetime entry for medal events, and the streaming entry. -/
def applyBroadcastRules (events : List NormEvent) (rules : Option BroadcastRules) :
    List NormEvent :=
  match rules with
  | none => events
  | some r =>
    events.map (fun evt =>
      match r.eventOverrides evt.id with
      | some ov => { evt with broadcast := ov }
      | none =>
        let b1 : List Broadcast :=
          match r.sportNetworks evt.sport with
          | some net =>
            if net = "" then []
            else [{ network := net, btype := "live", time := cetToMountain evt.time }]
          | none => []
        let b2 : List Broadcast :=
          if evt.isMedalEvent then
            match r.medalPrimetime with
            | some mp => [{ network := mp.1, btype := "primetime", time := mp.2 }]
            | none => []
          else []
        let b3 : List Broadcast :=
          match r.streaming with
          | some st =>
            [{ network := st.1, btype := if st.2 = "" then "streaming" else st.2 }]
          | none => []
        { evt with broadcast := b1 ++ b2 ++ b3 })

/-- Sport-name alias table (`sportAliases`, all 29 entries). -/
def sportAliases : String → Option String
  | "alpine skiing" => some "alpine skiing"
  | "biathlon" => some "biathlon"
  | "bobsleigh" => some "bobsleigh"
  | "bobsled" => some "bobsleigh"
  | "cross-country skiing" => some "cross-country skiing"
  | "cross country skiing" => some "cross-country skiing"
  | "curling" => some "curling"
  | "figure skating" => some "figure skating"
  | "freestyle skiing" => some "freestyle skiing"
  | "freestyle aerials" => some "freestyle skiing"
  | "freestyle moguls" => some "freestyle skiing"
  | "freeski halfpipe" => some "freestyle skiing"
  | "freeski slopestyle & big air" => some "freestyle skiing"
  | "freeski slopestyle" => some "freestyle skiing"
  | "freeski big air" => some "freestyle skiing"
  | "ice hockey" => some "ice hockey"
  | "luge" => some "luge"
  | "nordic combined" => some "nordic combined"
  | "short track speed skating" => some "short track speed skating"
  | "short track" => some "short track speed skating"
  | "skeleton" => some "skeleton"
  | "ski jumping" => some "ski jumping"
  | "snowboard" => some "snowboard"
  | "snowboarding" => some "snowboard"
  | "snowboard cross" => some "snowboard"
  | "snowboard halfpipe" => some "snowboard"
  | "snowboard slopestyle" => some "snowboard"
  | "snowboard big air" => some "snowboard"
  | "snowboard parallel giant slalom" => some "snowboard"
  | "speed skating" => some "speed skating"
  | _ => none

/-- `normalizeSport(name)`: lowercase, trim, then canonicalize through
`sportAliases`; `""` passes through. -/
def normalizeSport (name : String) : String :=
  if name = "" then ""
  else
    let lower := trimS (lowerS name)
    match sportAliases lower with
    | some s => s
    | none => lower

/-- Event alias table (`eventAliases`, all 12 entries). -/
def eventAliases : String → Option (List String)
  | "four-man" => some ["4-man"]
  | "two-man" => some ["2-man"]
  | "pairs" => some ["pair skating", "pairs"]
  | "team event" => some ["team event"]
  | "single skating" => some ["single skating"]
  | "big air" => some ["big air", " ba "]
  | "halfpipe" => some ["halfpipe", " hp "]
  | "slopestyle" => some ["slopestyle"]
  | "parallel giant slalom" => some ["pgs", "parallel giant slalom"]
  | "snowboard cross" => some ["snowboard cross", "sbx", "sbd cross"]
  | "skeleton" => some ["skeleton", "heat"]
  | "individual" => some ["individual", "ind."]
  | _ => none

/-- `eventMatches(athleteEvent, evtText)`: direct lowercase substring
match first, then the alias list for the label, if any. -/
def eventMatches (athleteEvent evtText : String) : Bool :=
  let ev := lowerS athleteEvent
  if containsS evtText ev then true
  else
    match eventAliases ev with
    | some aliases => aliases.any (fun a => containsS evtText a)
    | none => false

/-- Roster member as produced by `Athletes.fetchAthletes`: `gender` is
`"M"`, `"F"` or `""`; `events` is the parsed semicolon-delimited
declared-events column. -/
structure Athlete where
  name : String := ""
  sport : String := ""
  gender : String := ""
  events : List String := []
deriving DecidableEq

/-- Lookup in the sport-to-athletes index of
`matchScheduleToAthletes` (`sportMap[key] || []`): the index groups
athletes by normalized sport preserving roster order, so the bucket
for `key` is exactly the order-preserving filter of the roster. -/
def sportMapLookup (athletes : List Athlete) (key : String) : List Athlete :=
  athletes.filter (fun ath => normalizeSport ath.sport == key)

/-- Padded lowercase discipline/event text an event is matched
against: `' ' + evtDisc + ' ' + evtEvent + ' '`. -/
def evtTextOf (evt : NormEvent) : String :=
  " " ++ trimS (lowerS evt.discipline) ++ " " ++ trimS (lowerS evt.event) ++ " "

/-- Candidate athletes for one event: sport bucket, then the gender
filter (skipped for genderless events and empty buckets), then the
declared-events filter (athletes with no declared events pass) — the
body of the `schedule.map` callback in `matchScheduleToAthletes` up to
the attached `athletes` list. -/
def candidatesFor (athletes : List Athlete) (evt : NormEvent) : List Athlete :=
  let matched0 := sportMapLookup athletes (normalizeSport evt.sport)
  let matched1 :=
    if evt.eventGender != "" && !matched0.isEmpty then
      matched0.filter (fun ath => ath.gender == "" || ath.gender == evt.eventGender)
    else matched0
  if !matched1.isEmpty then
    matched1.filter (fun ath =>
      if !ath.events.isEmpty then
        ath.events.any (fun ev => eventMatches ev (evtTextOf evt))
      else true)
  else matched1

/-- Event with its matched athletes attached. -/
structure MatchedEvent where
  id : String := ""
  date : String := ""
  time : String := ""
  sport : String := ""
  discipline : String := ""
  event : String := ""
  venue : String := ""
  isMedalEvent : Bool := false
  status : String := "upcoming"
  eventGender : String := ""
  broadcast : List Broadcast := []
  athletes : List Athlete := []
deriving DecidableEq

/-- Result object built for one event by `matchScheduleToAthletes`
(fields copied with the source's `|| `-defaults, athletes attached). -/
def matchedEventOf (evt : NormEvent) (matched : List Athlete) : MatchedEvent :=
  { id := evt.id
    date := evt.date
    time := evt.time
    sport := evt.sport
    discipline := evt.discipline
    event := evt.event
    venue := evt.venue
    isMedalEvent := evt.isMedalEvent
    status := if evt.status = "" then "upcoming" else evt.status
    eventGender := evt.eventGender
    broadcast := evt.broadcast
    athletes := matched }

/-- `matchScheduleToAthletes(schedule, athletes)`: attach candidates
to every event, then keep only events with at least one matched
athlete. -/
def matchScheduleToAthletes (schedule : List NormEvent) (athletes : List Athlete) :
    List MatchedEvent :=
  (schedule.map (fun evt => matchedEventOf evt (candidatesFor athletes evt))).filter
    (fun evt => 0 < evt.athletes.length)

/-- C5: for every time string `"HH:MM"` whose hour parses to
`h ∈ [0, 24)` and whose minutes field is nonempty, `cetToMountain`
returns the hour `(h - 8) mod 24` (zero-padded to two digits) with the
minutes passed through unchanged; in particular `"19:00" ↦ "11:00"`
and `"02:00" ↦ "18:00"`, with no date adjustment (the function returns
only a time). -/
theorem C5_cetToMountain_offset (timeStr hh mm : String) (h : Int)
    (hsplit : splitS ':' timeStr = [hh, mm])
    (hparse : parseIntJS hh = some h)
    (h0 : 0 ≤ h) (h24 : h < 24) (hmm : mm ≠ "") :
    (cetToMountain timeStr =
      (if (h - 8) % 24 < 10 then "0" else "") ++ toString ((h - 8) % 24) ++ ":" ++ mm)
    ∧ cetToMountain "19:00" = "11:00" ∧ cetToMountain "02:00" = "18:00" := by
  refine ⟨?_, by decide, by decide⟩
  have hne : timeStr ≠ "" := by
    intro he
    subst he
    have hlen : (splitS ':' "").length = 1 := rfl
    rw [hsplit] at hlen
    simp at hlen
  have hmod : (if h - 8 < 0 then h - 8 + 24 else h - 8) = (h - 8) % 24 := by
    omega
  simp only [cetToMountain, if_neg hne, hsplit, hparse, List.drop_succ_cons,
    List.drop_zero, List.headD_cons, if_neg hmm]
  rw [hmod]

/-- Witness for C5 at the concrete input `"19:00"`. -/
theorem C5_witness :
    cetToMountain "19:00" =
      (if ((19 : Int) - 8) % 24 < 10 then "0" else "")
        ++ toString (((19 : Int) - 8) % 24) ++ ":" ++ "00" :=
  (C5_cetToMountain_offset "19:00" "19" "00" 19 (by decide) (by decide)
    (by decide) (by decide) (by decide)).1

/-- C6 counterexample: a cache entry written at time 0 and queried at
time 86400000 (exactly the off-season TTL later) is reported fresh
(`isStale = false`) by `getCacheWithAge`, although the elapsed time is
not strictly less than the TTL — the code treats an entry as stale
only when the elapsed time strictly exceeds the TTL. -/
theorem C6_counterexample :
    getCacheWithAge 86400000 (some { timestamp := 0, data := some 42 })
      = some (42, false)
    ∧ ¬((86400000 : Int) - 0 < getCacheTTL 86400000) := by
  constructor
  · rfl
  · decide

/-- C6 amended: an entry written at `T` is read back as fresh by a
query at `Tq` iff `Tq - T ≤ TTL(Tq)` (non-strict), and as stale iff
`TTL(Tq) < Tq - T`, where `TTL(Tq)` is 30 minutes exactly when `Tq`
lies in the competition window and 24 hours otherwise — so freshness
of the same entry can change when the query time crosses the window
boundary. -/
theorem C6_cache_ttl_amended (T Tq : Int) (d : Nat) :
    (getCacheWithAge Tq (some { timestamp := T, data := some d }) = some (d, false)
      ↔ Tq - T ≤ getCacheTTL Tq)
    ∧ (getCacheWithAge Tq (some { timestamp := T, data := some d }) = some (d, true)
      ↔ getCacheTTL Tq < Tq - T)
    ∧ (getCacheTTL Tq = 30 * 60 * 1000 ↔ inWindow Tq = true)
    ∧ (getCacheTTL Tq = 24 * 60 * 60 * 1000 ↔ inWindow Tq = false) := by
  refine ⟨?_, ?_, ?_, ?_⟩
  · simp [getCacheWithAge, decide_eq_false_iff_not, not_lt]
  · simp [getCacheWithAge]
  · by_cases hw : inWindow Tq <;> simp [getCacheTTL, hw]
  · by_cases hw : inWindow Tq <;> simp [getCacheTTL, hw]

/-- Witness for C6 amended at `T = 0`, `Tq = 1000`, payload `5`. -/
theorem C6_amended_witness :
    getCacheWithAge 1000 (some { timestamp := 0, data := some 5 }) = some (5, false) :=
  (C6_cache_ttl_amended 0 1000 5).1.mpr (by decide)

/-- C7: without the bypass flag, `backgroundRefresh` issues no
outbound call (and leaves the recorded timestamp unchanged) whenever
the last recorded attempt is within the throttle window of the current
time; and between any two invocations that do issue a call, at least
the throttle window of the later time elapses, whatever the prior
recorded timestamp and regardless of cache staleness. -/
theorem C7_backgroundRefresh_throttle :
    (∀ now t0 : Int, now - t0 ≤ throttleWindow now →
      backgroundRefreshStep false now (some t0) = (false, some t0))
    ∧ (∀ t1 t2 : Int, ∀ last : Option Int,
        (backgroundRefreshStep false t1 last).1 = true →
        (backgroundRefreshStep false t2 (backgroundRefreshStep false t1 last).2).1 = true →
        throttleWindow t2 ≤ t2 - t1) := by
  constructor
  · intro now t0 hle
    have hc : canRefreshAPI false now (some t0) = false := by
      simp [canRefreshAPI]
      omega
    simp [backgroundRefreshStep, hc]
  · intro t1 t2 last h1 h2
    have hs1 : backgroundRefreshStep false t1 last = (true, some t1) := by
      unfold backgroundRefreshStep at h1 ⊢
      by_cases hc : canRefreshAPI false t1 last = true
      · simp [hc]
      · simp [hc] at h1
    rw [hs1] at h2
    unfold backgroundRefreshStep at h2
    by_cases hc : canRefreshAPI false t2 (some t1) = true
    · simp [canRefreshAPI] at hc
      omega
    · simp [hc] at h2

/-- Witness for C7: a second attempt 1000ms after the first issues no
call; an attempt more than 24h after an initial call did go through,
having waited at least the throttle window. -/
theorem C7_witness :
    backgroundRefreshStep false 1000 (some 500) = (false, some 500)
    ∧ throttleWindow 90000000 ≤ 90000000 - 0 :=
  ⟨C7_backgroundRefresh_throttle.1 1000 500 (by decide),
   C7_backgroundRefresh_throttle.2 0 90000000 none (by decide) (by decide)⟩

/-- Concrete event with a nonempty broadcast list, exhibiting that
null rules pass events through unaltered. -/
def broadcastCexEvent : NormEvent :=
  { broadcast := [{ network := "X", btype := "live" }] }

/-- C8 counterexample: with null rules, `applyBroadcastRules` returns
its input unchanged, so an input event whose broadcast list is
nonempty keeps it — the output events do not all have empty broadcast
lists. -/
theorem C8_counterexample :
    ¬ ∀ e ∈ applyBroadcastRules [broadcastCexEvent] none,
        e.broadcast = ([] : List Broadcast) := by
  decide

/-- C8 amended: with null rules `applyBroadcastRules` returns the
event list unchanged (no field altered); consequently, when every
input event has an empty broadcast list — which `normalizeAPIData`
guarantees for pipeline inputs — every output event does too. -/
theorem C8_null_rules_amended (events : List NormEvent) :
    applyBroadcastRules events none = events
    ∧ ((∀ e ∈ events, e.broadcast = []) →
      ∀ e ∈ applyBroadcastRules events none, e.broadcast = []) := by
  refine ⟨rfl, ?_⟩
  intro h e he
  exact h e he

/-- Witness for C8 amended on a one-event list with empty broadcast. -/
theorem C8_amended_witness :
    applyBroadcastRules [({} : NormEvent)] none = [({} : NormEvent)]
    ∧ ∀ e ∈ applyBroadcastRules [({} : NormEvent)] none,
        e.broadcast = ([] : List Broadcast) :=
  ⟨(C8_null_rules_amended [{}]).1, (C8_null_rules_amended [{}]).2 (by decide)⟩

/-- C2: for a raw record whose sport field is absent (`""`) or
`"unknown"` and whose venue name contains `"sliding"`
(case-insensitively — `venueNameLower` is the lowercased venue name
the code reads), normalization classifies the sport as `"Luge"` when
the discipline contains `"singles"`, and as `"Skeleton"` when it
contains `"heat"` and none of the four singles/doubles-branch keywords
(`singles`, `doubles`, `mixed team`, `team relay`). -/
theorem C2_sliding_classification (e : RawEvent)
    (hsport : e.sport = "" ∨ e.sport = "unknown")
    (hslide : containsS (venueNameLower e.venue) "sliding" = true) :
    (containsS (lowerS e.discipline) "singles" = true →
      (normalizeOne e).sport = "Luge")
    ∧ (containsS (lowerS e.discipline) "heat" = true →
      containsS (lowerS e.discipline) "singles" = false →
      containsS (lowerS e.discipline) "doubles" = false →
      containsS (lowerS e.discipline) "mixed team" = false →
      containsS (lowerS e.discipline) "team relay" = false →
      (normalizeOne e).sport = "Skeleton") := by
  constructor
  · intro hs
    have hc : classifyUnknownEvent e = "Luge" := by
      simp [classifyUnknownEvent, hslide, hs]
    rcases hsport with h | h <;> simp [normalizeOne, h, hc]
  · intro hh h1 h2 h3 h4
    have hc : classifyUnknownEvent e = "Skeleton" := by
      simp [classifyUnknownEvent, hslide, h1, h2, h3, h4, hh]
    rcases hsport with h | h <;> simp [normalizeOne, h, hc]

/-- Witness for C2: a singles event at the sliding centre classifies
as Luge, a heat event there as Skeleton. -/
theorem C2_witness :
    (normalizeOne
      { sport := "unknown", discipline := "Luge Singles Run 1",
        venue := RawVenue.vobj "Cortina Sliding Centre" "Cortina" }).sport = "Luge"
    ∧ (normalizeOne
      { sport := "unknown", discipline := "Skeleton Competition Heat 1",
        venue := RawVenue.vobj "Cortina Sliding Centre" "Cortina" }).sport
        = "Skeleton" :=
  ⟨(C2_sliding_classification _ (Or.inr rfl) (by decide)).1 (by decide),
   (C2_sliding_classification _ (Or.inr rfl) (by decide)).2 (by decide) (by decide)
     (by decide) (by decide) (by decide)⟩

/-- C3: gender inference over the lowercased space-join of the raw
`discipline`, `event`, `eventName` and `gender` fields obeys the fixed
precedence: `"mixed"` anywhere yields `""` (even alongside
`"women"`/`"ladies"`/`"men"`); otherwise `"women"`/`"ladies"` yield
`"F"`; otherwise a word-boundary `"men"` or a `"men's"` (either
apostrophe) yields `"M"`; otherwise the gender is `""`. -/
theorem C3_gender_precedence (e : RawEvent) :
    (containsS (genderSourceOf e) "mixed" = true →
      (normalizeOne e).eventGender = "")
    ∧ (containsS (genderSourceOf e) "mixed" = false →
      (containsS (genderSourceOf e) "women" = true ∨
        containsS (genderSourceOf e) "ladies" = true) →
      (normalizeOne e).eventGender = "F")
    ∧ (containsS (genderSourceOf e) "mixed" = false →
      containsS (genderSourceOf e) "women" = false →
      containsS (genderSourceOf e) "ladies" = false →
      (wbMen (genderSourceOf e) = true ∨
        containsS (genderSourceOf e) "men\x27s" = true ∨
        containsS (genderSourceOf e) "men’s" = true) →
      (normalizeOne e).eventGender = "M")
    ∧ (containsS (genderSourceOf e) "mixed" = false →
      containsS (genderSourceOf e) "women" = false →
      containsS (genderSourceOf e) "ladies" = false →
      wbMen (genderSourceOf e) = false →
      containsS (genderSourceOf e) "men\x27s" = false →
      containsS (genderSourceOf e) "men’s" = false →
      (normalizeOne e).eventGender = "") := by
  have hg : (normalizeOne e).eventGender = inferGender (genderSourceOf e) := rfl
  refine ⟨?_, ?_, ?_, ?_⟩
  · intro hm
    rw [hg]
    simp [inferGender, hm]
  · intro hm hw
    rw [hg]
    rcases hw with hw | hw <;> simp [inferGender, hm, hw]
  · intro hm hw hl hmen
    rw [hg]
    rcases hmen with h | h | h <;> simp [inferGender, hm, hw, hl, h]
  · intro hm hw hl h1 h2 h3
    rw [hg]
    simp [inferGender, hm, hw, hl, h1, h2, h3]

/-- Witness for C3: a mixed event naming women infers `""`; a
`"Men's"` event infers `"M"`. -/
theorem C3_witness :
    (normalizeOne { discipline := "Mixed Team Relay Women\x27s leg" }).eventGender = ""
    ∧ (normalizeOne { discipline := "Men\x27s Downhill" }).eventGender = "M" :=
  ⟨(C3_gender_precedence _).1 (by decide),
   (C3_gender_precedence _).2.2.1 (by decide) (by decide) (by decide)
     (Or.inl (by decide))⟩

/-- Records with an absent/unknown sport that the classification
heuristic cannot resolve end up with the `"unknown"` sentinel sport
after per-event normalization. -/
theorem normalizeOne_sport_of_unresolved (raw : RawEvent)
    (h : raw.sport = "" ∨ raw.sport = "unknown")
    (hc : classifyUnknownEvent raw = "") :
    (normalizeOne raw).sport = "unknown" := by
  rcases h with h | h <;> simp [normalizeOne, h, hc]

/-- C1: every event in the output of `normalizeAPIData` has a sport
different from the `"unknown"` sentinel and its medal flag set; and
the normalization of any input record whose sport cannot be resolved
(absent/unknown sport that the heuristic classifies as `""`) or whose
medal flag is false is absent from the output — the record is dropped
silently (the function is total; no error value exists). -/
theorem C1_normalize_medal_filter (data : List RawEvent) :
    (∀ ev ∈ normalizeAPIData data, ev.sport ≠ "unknown" ∧ ev.isMedalEvent = true)
    ∧ (∀ raw ∈ data,
      ((raw.sport = "" ∨ raw.sport = "unknown") ∧ classifyUnknownEvent raw = "")
        ∨ raw.is_medal_event = false →
      normalizeOne raw ∉ normalizeAPIData data) := by
  have hmem : ∀ ev ∈ normalizeAPIData data,
      ev.sport ≠ "unknown" ∧ ev.isMedalEvent = true := by
    intro ev hev
    have h2 := (List.mem_filter.mp hev).2
    simpa using h2
  refine ⟨hmem, ?_⟩
  rintro raw _ (⟨hs, hc⟩ | hm) hin
  · exact (hmem _ hin).1 (normalizeOne_sport_of_unresolved raw hs hc)
  · have h1 := (hmem _ hin).2
    have h2 : (normalizeOne raw).isMedalEvent = raw.is_medal_event := rfl
    rw [h2, hm] at h1
    exact Bool.false_ne_true h1

/-- Medal-flagged luge record used by the C1 witness. -/
def rawLugeMedal : RawEvent :=
  { sport := "luge", discipline := "Luge Singles", is_medal_event := true }

/-- Non-medal record used by the C1 witness. -/
def rawLugeTraining : RawEvent :=
  { sport := "luge", discipline := "Luge Training" }

/-- Witness for C1 on a concrete two-record input. -/
theorem C1_witness :
    ((normalizeOne rawLugeMedal).sport ≠ "unknown"
      ∧ (normalizeOne rawLugeMedal).isMedalEvent = true)
    ∧ normalizeOne rawLugeTraining
        ∉ normalizeAPIData [rawLugeMedal, rawLugeTraining] :=
  ⟨(C1_normalize_medal_filter [rawLugeMedal, rawLugeTraining]).1
      (normalizeOne rawLugeMedal) (by decide),
   (C1_normalize_medal_filter [rawLugeMedal, rawLugeTraining]).2
      rawLugeTraining (by decide) (Or.inr rfl)⟩

/-- Replacement is the identity on inputs without an occurrence of the
pattern, for any amount of fuel. -/
theorem replaceAllFuel_of_not_occurs (pat : List Char) (fuel : Nat) :
    ∀ s : List Char, occursB pat s = false → replaceAllFuel pat fuel s = s := by
  induction fuel with
  | zero =>
    intro s _
    rfl
  | succ n ih =>
    intro s h
    cases s with
    | nil => rfl
    | cons c t =>
      rw [occursB, Bool.or_eq_false_iff] at h
      simp [replaceAllFuel, h.1, ih t h.2]

/-- JS `replace(/pat/g, '')` is the identity when `pat` does not occur. -/
theorem replaceAllL_of_not_occurs (pat s : List Char) (h : occursB pat s = false) :
    replaceAllL pat s = s :=
  replaceAllFuel_of_not_occurs pat s.length s h

/-- Dropping a prefix of `p`-characters twice is the same as once. -/
theorem dropWhile_dropWhile (p : Char → Bool) (l : List Char) :
    (l.dropWhile p).dropWhile p = l.dropWhile p := by
  induction l with
  | nil => rfl
  | cons c t ih =>
    by_cases h : p c
    · simp [List.dropWhile_cons, h, ih]
    · simp [List.dropWhile_cons, h]

/-- A prefix of a list with no leading `p`-characters has no leading
`p`-characters either. -/
theorem dropWhile_eq_self_of_prefix (p : Char → Bool) (t l : List Char)
    (hpre : t <+: l) (hl : l.dropWhile p = l) : t.dropWhile p = t := by
  cases t with
  | nil => rfl
  | cons a t' =>
    cases l with
    | nil =>
      have : a :: t' = [] := List.prefix_nil.mp hpre
      simp at this
    | cons b l' =>
      have hab : a = b := by
        obtain ⟨r, hr⟩ := hpre
        cases hr
        rfl
      have hpb : p b = false := by
        cases hb : p b with
        | false => rfl
        | true =>
          rw [List.dropWhile_cons, if_pos hb] at hl
          have hle : (l'.dropWhile p).length ≤ l'.length :=
            List.Sublist.length_le (List.dropWhile_sublist _)
          have hlen := congrArg List.length hl
          simp at hlen
          omega
      subst hab
      simp [List.dropWhile_cons, hpb]

/-- Right trim produces a prefix of its input. -/
theorem rtrim_prefix (p : Char → Bool) (l : List Char) :
    (l.reverse.dropWhile p).reverse <+: l := by
  have h1 : l.reverse.dropWhile p <:+ l.reverse := List.dropWhile_suffix p
  have h2 := List.reverse_prefix.mpr h1
  rwa [List.reverse_reverse] at h2

/-- A fully trimmed list has no leading whitespace. -/
theorem ltrim_trimL (s : List Char) :
    (trimL s).dropWhile Char.isWhitespace = trimL s := by
  unfold trimL
  refine dropWhile_eq_self_of_prefix Char.isWhitespace _
    (s.dropWhile Char.isWhitespace) ?_ ?_
  · exact rtrim_prefix _ _
  · exact dropWhile_dropWhile _ _

/-- Trimming is idempotent. -/
theorem trimL_idem (s : List Char) : trimL (trimL s) = trimL s := by
  show (((trimL s).dropWhile Char.isWhitespace).reverse.dropWhile
    Char.isWhitespace).reverse = trimL s
  rw [ltrim_trimL]
  have h2 : (trimL s).reverse
      = (s.dropWhile Char.isWhitespace).reverse.dropWhile Char.isWhitespace := by
    show ((((s.dropWhile Char.isWhitespace).reverse.dropWhile
      Char.isWhitespace).reverse).reverse) = _
    rw [List.reverse_reverse]
  rw [h2, dropWhile_dropWhile]
  rfl

/-- Folding the pattern replacements over an input in which no pattern
occurs changes nothing. -/
theorem foldl_replaceAll_id (ps : List String) (x : List Char)
    (h : ∀ p ∈ ps, occursB p.data x = false) :
    ps.foldl (fun acc p => replaceAllL p.data acc) x = x := by
  induction ps with
  | nil => rfl
  | cons q qs ih =>
    have hq : replaceAllL q.data x = x :=
      replaceAllL_of_not_occurs q.data x (h q (List.mem_cons_self q qs))
    simp only [List.foldl_cons, hq]
    exact ih fun p hp => h p (List.mem_cons_of_mem q hp)

/-- C9 counterexample: discipline cleaning is not idempotent on every
string — removing `"Medal Event"` from
`"Medal EMedal Eventvent"` creates a fresh `"Medal Event"`, which a
second cleaning pass then removes. -/
theorem C9_counterexample :
    cleanDiscipline (cleanDiscipline "Medal EMedal Eventvent")
      ≠ cleanDiscipline "Medal EMedal Eventvent" := by
  decide

/-- C9 amended: discipline cleaning is idempotent on every string
whose cleaned form contains none of the ten stripped patterns — in
particular on every input whose single cleaning pass removes all
embedded markers, which holds for all real API discipline texts. -/
theorem C9_clean_idem_amended (s : String)
    (h : ∀ p ∈ cleanPatterns, occursB p.data (cleanDiscipline s).data = false) :
    cleanDiscipline (cleanDiscipline s) = cleanDiscipline s := by
  by_cases hs : s = ""
  · subst hs
    rfl
  · by_cases hout : cleanDiscipline s = ""
    · rw [hout]
      rfl
    · have hdata : (cleanDiscipline s).data
          = trimL (cleanPatterns.foldl (fun acc p => replaceAllL p.data acc) s.data) := by
        simp [cleanDiscipline, hs]
      show (if cleanDiscipline s = "" then ""
        else (⟨trimL (cleanPatterns.foldl (fun acc p => replaceAllL p.data acc)
          (cleanDiscipline s).data)⟩ : String)) = cleanDiscipline s
      rw [if_neg hout, foldl_replaceAll_id _ _ h, hdata, trimL_idem, ← hdata]

/-- Witness for C9 amended: a realistic discipline text with embedded
venue and medal markers cleans to a fixed point. -/
theorem C9_amended_witness :
    cleanDiscipline (cleanDiscipline "Men\x27s DownhillMedal EventStelvio Ski Centre")
      = cleanDiscipline "Men\x27s DownhillMedal EventStelvio Ski Centre" :=
  C9_clean_idem_amended _ (by decide)

/-- Unfolding of `eventMatches`: a label matches the event text iff it
occurs directly as a substring or one of its fixed aliases does. -/
theorem eventMatches_iff (l txt : String) :
    eventMatches l txt = true ↔
      (containsS txt (lowerS l) = true ∨
        ∃ al ∈ (eventAliases (lowerS l)).getD [], containsS txt al = true) := by
  by_cases hd : containsS txt (lowerS l) = true
  · simp [eventMatches, hd]
  · simp only [eventMatches, if_neg hd]
    cases ha : eventAliases (lowerS l) with
    | none => simp [hd]
    | some as => simp [hd, List.any_eq_true]

/-- Membership in a sport bucket of the athlete index. -/
theorem mem_sportMapLookup (athletes : List Athlete) (key : String) (ath : Athlete) :
    ath ∈ sportMapLookup athletes key ↔
      ath ∈ athletes ∧ normalizeSport ath.sport = key := by
  simp [sportMapLookup, List.mem_filter]

/-- Membership after the conditional gender filter of
`matchScheduleToAthletes`. -/
theorem mem_genderStage (m0 : List Athlete) (g : String) (ath : Athlete) :
    (ath ∈ if g != "" && !m0.isEmpty then
      m0.filter (fun a => a.gender == "" || a.gender == g)
    else m0) ↔
      ath ∈ m0 ∧ (g = "" ∨ ath.gender = "" ∨ ath.gender = g) := by
  by_cases hg : g = ""
  · simp [hg]
  · by_cases hm : m0.isEmpty
    · have h0 : m0 = [] := List.isEmpty_iff.mp hm
      subst h0
      simp
    · have hcond : (g != "" && !m0.isEmpty) = true := by
        simp [hg, hm]
      rw [if_pos hcond]
      simp [List.mem_filter, hg]

/-- Membership after the conditional declared-events filter of
`matchScheduleToAthletes`. -/
theorem mem_eventsStage (m1 : List Athlete) (txt : String) (ath : Athlete) :
    (ath ∈ if !m1.isEmpty then
      m1.filter (fun a =>
        if !a.events.isEmpty then a.events.any (fun ev => eventMatches ev txt)
        else true)
    else m1) ↔
      ath ∈ m1 ∧ (ath.events = [] ∨ ∃ l ∈ ath.events, eventMatches l txt = true) := by
  have hpred : ∀ a : Athlete,
      ((if !a.events.isEmpty then a.events.any (fun ev => eventMatches ev txt)
        else true) = true)
      ↔ (a.events = [] ∨ ∃ l ∈ a.events, eventMatches l txt = true) := by
    intro a
    by_cases he : a.events.isEmpty
    · have h0 : a.events = [] := List.isEmpty_iff.mp he
      simp [he, h0]
    · have h0 : a.events ≠ [] := by
        simpa [List.isEmpty_iff] using he
      simp [he, List.any_eq_true, h0]
  by_cases hm : m1.isEmpty
  · have h0 : m1 = [] := List.isEmpty_iff.mp hm
    subst h0
    simp
  · simp [hm, List.mem_filter, hpred]

/-- Full characterization of the candidate list attached to an event:
bucket membership, gender pass, and declared-events pass. -/
theorem mem_candidatesFor (athletes : List Athlete) (evt : NormEvent) (ath : Athlete) :
    ath ∈ candidatesFor athletes evt ↔
      (ath ∈ athletes ∧ normalizeSport ath.sport = normalizeSport evt.sport
        ∧ (evt.eventGender = "" ∨ ath.gender = "" ∨ ath.gender = evt.eventGender)
        ∧ (ath.events = [] ∨ ∃ label ∈ ath.events,
            eventMatches label (evtTextOf evt) = true)) := by
  simp only [candidatesFor]
  rw [mem_eventsStage, mem_genderStage, mem_sportMapLookup]
  tauto

/-- Roster member with declared events `["Downhill", "Super-G"]`. -/
def athDownhiller : Athlete :=
  { name := "A", sport := "Alpine Skiing", gender := "F",
    events := ["Downhill", "Super-G"] }

/-- Same-sport, same-gender event whose text contains `"downhill"`. -/
def evtDownhillF : NormEvent :=
  { sport := "Alpine Skiing", discipline := "Women\x27s Downhill",
    event := "Women\x27s Downhill", eventGender := "F" }

/-- Same-sport, same-gender event whose text contains only `"slalom"`. -/
def evtSlalomF : NormEvent :=
  { sport := "Alpine Skiing", discipline := "Women\x27s Slalom",
    event := "Women\x27s Slalom", eventGender := "F" }

/-- C4: a roster member in an event's sport bucket who passes the
gender filter and declares events is kept iff some declared label
occurs in the padded lowercase event text directly or via the alias
table; a member with no declared events is kept unconditionally within
the bucket; events with zero candidates are removed from the output;
and the concrete `["Downhill", "Super-G"]` member matches a downhill
event but not a slalom-only event, which is then dropped. -/
theorem C4_match_semantics (schedule : List NormEvent) (athletes : List Athlete) :
    (∀ evt ath, ath ∈ candidatesFor athletes evt ↔
      (ath ∈ athletes ∧ normalizeSport ath.sport = normalizeSport evt.sport
        ∧ (evt.eventGender = "" ∨ ath.gender = "" ∨ ath.gender = evt.eventGender)
        ∧ (ath.events = [] ∨ ∃ label ∈ ath.events,
            (containsS (evtTextOf evt) (lowerS label) = true ∨
              ∃ al ∈ (eventAliases (lowerS label)).getD [],
                containsS (evtTextOf evt) al = true))))
    ∧ (∀ evm ∈ matchScheduleToAthletes schedule athletes, evm.athletes ≠ [])
    ∧ athDownhiller ∈ candidatesFor [athDownhiller] evtDownhillF
    ∧ athDownhiller ∉ candidatesFor [athDownhiller] evtSlalomF
    ∧ matchScheduleToAthletes [evtSlalomF] [athDownhiller] = [] := by
  refine ⟨?_, ?_, by decide, by decide, by decide⟩
  · intro evt ath
    rw [mem_candidatesFor]
    simp [eventMatches_iff]
  · intro evm h
    have h2 := (List.mem_filter.mp h).2
    simp at h2
    intro hnil
    rw [hnil] at h2
    simp at h2

/-- Witness for C4: the downhill athlete is matched to the downhill
event, and that event keeps a nonempty athletes list in the output. -/
theorem C4_witness :
    athDownhiller ∈ candidatesFor [athDownhiller] evtDownhillF
    ∧ (matchedEventOf evtDownhillF
        (candidatesFor [athDownhiller] evtDownhillF)).athletes ≠ [] :=
  ⟨((C4_match_semantics [evtDownhillF] [athDownhiller]).1 evtDownhillF
      athDownhiller).mpr (by decide),
   (C4_match_semantics [evtDownhillF] [athDownhiller]).2.1
      (matchedEventOf evtDownhillF (candidatesFor [athDownhiller] evtDownhillF))
      (by decide)⟩

end Sched
